import Mathlib

/-!
Shallow embedding of the X3D viewer (src/main.rs).

Floating-point arithmetic is modelled over the real numbers, and the
`nalgebra_glm` vector and matrix operations are translated componentwise
from their sources.  The graphics and windowing APIs are modelled as
command traces together with environments supplying the values the
driver would report (shader handles, compile status, info logs, input
events).
-/

noncomputable section

/-- A 3-component vector, modelling `nalgebra_glm::Vec3`. -/
@[ext] structure Vec3 where
  x : ℝ
  y : ℝ
  z : ℝ

namespace Vec3

instance : Zero Vec3 := ⟨⟨0, 0, 0⟩⟩

instance : Add Vec3 := ⟨fun a b => ⟨a.x + b.x, a.y + b.y, a.z + b.z⟩⟩

instance : Sub Vec3 := ⟨fun a b => ⟨a.x - b.x, a.y - b.y, a.z - b.z⟩⟩

instance : SMul ℝ Vec3 := ⟨fun t a => ⟨t * a.x, t * a.y, t * a.z⟩⟩

@[simp] theorem zero_x : (0 : Vec3).x = 0 := rfl

@[simp] theorem zero_y : (0 : Vec3).y = 0 := rfl

@[simp] theorem zero_z : (0 : Vec3).z = 0 := rfl

@[simp] theorem add_x (a b : Vec3) : (a + b).x = a.x + b.x := rfl

@[simp] theorem add_y (a b : Vec3) : (a + b).y = a.y + b.y := rfl

@[simp] theorem add_z (a b : Vec3) : (a + b).z = a.z + b.z := rfl

@[simp] theorem sub_x (a b : Vec3) : (a - b).x = a.x - b.x := rfl

@[simp] theorem sub_y (a b : Vec3) : (a - b).y = a.y - b.y := rfl

@[simp] theorem sub_z (a b : Vec3) : (a - b).z = a.z - b.z := rfl

@[simp] theorem smul_x (t : ℝ) (a : Vec3) : (t • a).x = t * a.x := rfl

@[simp] theorem smul_y (t : ℝ) (a : Vec3) : (t • a).y = t * a.y := rfl

@[simp] theorem smul_z (t : ℝ) (a : Vec3) : (t • a).z = t * a.z := rfl

/-- Dot product, as in `nalgebra::Vector3::dot`. -/
def dot (a b : Vec3) : ℝ := a.x * b.x + a.y * b.y + a.z * b.z

/-- Cross product, as in `nalgebra::Vector3::cross`. -/
def cross (a b : Vec3) : Vec3 :=
  ⟨a.y * b.z - a.z * b.y, a.z * b.x - a.x * b.z, a.x * b.y - a.y * b.x⟩

/-- Squared euclidean norm. -/
def normSq (a : Vec3) : ℝ := a.x * a.x + a.y * a.y + a.z * a.z

/-- Euclidean norm, as in `nalgebra::Vector3::norm`. -/
def norm (a : Vec3) : ℝ := Real.sqrt (normSq a)

/-- `nalgebra` normalization: the vector divided by its norm.  Under the
real-division convention used here the zero vector maps to the zero
vector. -/
def normalize (a : Vec3) : Vec3 := (1 / norm a) • a

end Vec3

/-- The rotation of `v` by angle `θ` about a unit axis `k`, by the
Rodrigues formula; this is `nalgebra::Rotation3::from_axis_angle`
applied to a vector. -/
def rodrigues (θ : ℝ) (k v : Vec3) : Vec3 :=
  Real.cos θ • v + Real.sin θ • Vec3.cross k v
    + ((1 - Real.cos θ) * Vec3.dot k v) • k

/-- `glm::rotate(&Mat4::identity(), θ, &axis)` applied to
`vec3_to_vec4(v)` (the vector padded with a zero `w` component) and
truncated back to three components.  `glm::rotate` normalizes the axis
internally via `Unit::new_normalize`, and the homogeneous rotation
matrix has no translation part, so the result is the Rodrigues rotation
of `v` about the normalized axis. -/
def rotate_vec (θ : ℝ) (axis v : Vec3) : Vec3 :=
  rodrigues θ (Vec3.normalize axis) v

/-- A 4x4 matrix given by rows, modelling `nalgebra_glm::Mat4`. -/
structure Mat4 where
  m00 : ℝ
  m01 : ℝ
  m02 : ℝ
  m03 : ℝ
  m10 : ℝ
  m11 : ℝ
  m12 : ℝ
  m13 : ℝ
  m20 : ℝ
  m21 : ℝ
  m22 : ℝ
  m23 : ℝ
  m30 : ℝ
  m31 : ℝ
  m32 : ℝ
  m33 : ℝ

/-- `glm::look_at(eye, target, up)`, which is `look_at_rh`: the
homogeneous matrix of `Isometry3::look_at_rh`.  Its rotation rows are
the x, y and z camera axes with `zaxis = normalize(eye - target)`,
`xaxis = normalize(cross(up, zaxis))`, `yaxis = cross(zaxis, xaxis)`,
and its translation column applies the rotation to `-eye`. -/
def look_at (eye target up : Vec3) : Mat4 :=
  let zaxis := Vec3.normalize (eye - target)
  let xaxis := Vec3.normalize (Vec3.cross up zaxis)
  let yaxis := Vec3.cross zaxis xaxis
  { m00 := xaxis.x, m01 := xaxis.y, m02 := xaxis.z, m03 := -(Vec3.dot xaxis eye)
    m10 := yaxis.x, m11 := yaxis.y, m12 := yaxis.z, m13 := -(Vec3.dot yaxis eye)
    m20 := zaxis.x, m21 := zaxis.y, m22 := zaxis.z, m23 := -(Vec3.dot zaxis eye)
    m30 := 0, m31 := 0, m32 := 0, m33 := 1 }

/-- The camera state: struct `Camera` in src/main.rs. -/
structure Camera where
  position : Vec3
  target : Vec3
  up : Vec3
  zoom : ℝ
  last_mouse_pos : ℝ × ℝ
  is_rotating : Bool

/-- `Camera::new` (src/main.rs lines 23-32). -/
def Camera.new : Camera :=
  { position := ⟨2, 2, 2⟩
    target := ⟨0, 0, 0⟩
    up := ⟨0, 1, 0⟩
    zoom := 1
    last_mouse_pos := (0, 0)
    is_rotating := false }

/-- `Camera::get_view_matrix` (src/main.rs lines 34-36):
`glm::look_at(&(self.position * self.zoom), &self.target, &self.up)`.
It reads the state and returns a matrix; it mutates nothing. -/
def Camera.get_view_matrix (c : Camera) : Mat4 :=
  look_at (c.zoom • c.position) c.target c.up

/-- `Camera::process_mouse` (src/main.rs lines 38-58).  The unused
`window` parameter is dropped.  The cursor coordinates are `f64` in the
source and are cast to `f32` before use; both are modelled as reals. -/
def Camera.process_mouse (c : Camera) (xpos ypos : ℝ) : Camera :=
  if c.is_rotating then
    let sensitivity : ℝ := 0.005
    let dx := (xpos - c.last_mouse_pos.1) * sensitivity
    let dy := (c.last_mouse_pos.2 - ypos) * sensitivity
    let right := Vec3.cross (Vec3.normalize (c.position - c.target)) c.up
    let pos1 := rotate_vec dy right (c.position - c.target) + c.target
    let pos2 := rotate_vec dx c.up (pos1 - c.target) + c.target
    { c with position := pos2, last_mouse_pos := (xpos, ypos) }
  else
    { c with last_mouse_pos := (xpos, ypos) }

/-- `Camera::process_scroll` (src/main.rs lines 60-63):
`zoom -= yoffset * 0.1; zoom = zoom.max(0.1).min(5.0)`. -/
def Camera.process_scroll (c : Camera) (yoffset : ℝ) : Camera :=
  { c with zoom := min (max (c.zoom - yoffset * 0.1) 0.1) 5.0 }

/-- The distance of the camera position from its target. -/
def cam_dist (c : Camera) : ℝ := Vec3.norm (c.position - c.target)

/-- The axis of the pitch rotation in `process_mouse`:
`cross(&(self.position - self.target).normalize(), &self.up)`. -/
def pitch_axis (c : Camera) : Vec3 :=
  Vec3.cross (Vec3.normalize (c.position - c.target)) c.up

/-- Nondegeneracy of one orbit step: the pitch rotation axis and the yaw
rotation axis (the up vector) are both nonzero, so the axis
normalizations inside `glm::rotate` are genuine unit vectors. -/
def nondeg (c : Camera) : Prop := pitch_axis c ≠ 0 ∧ c.up ≠ 0

/-- Nondegeneracy along a whole sequence of cursor positions fed to
`process_mouse`. -/
def nondeg_along : Camera → List (ℝ × ℝ) → Prop
  | _, [] => True
  | c, p :: rest => nondeg c ∧ nondeg_along (c.process_mouse p.1 p.2) rest

/-- Feeding a list of cursor positions to `process_mouse` in order. -/
def process_mouse_list (c : Camera) (ps : List (ℝ × ℝ)) : Camera :=
  ps.foldl (fun a p => a.process_mouse p.1 p.2) c

/-- The new camera position as the specification describes the rotating
branch of `process_mouse`: scale the cursor deltas by the fixed
sensitivity 0.005, pitch the position-minus-target vector about the
right vector `cross(normalize(position - target), up)` by the vertical
delta and re-add the target, then yaw about the fixed up vector by the
horizontal delta and re-add the target. -/
def spec_orbit_position (c : Camera) (xpos ypos : ℝ) : Vec3 :=
  let dx := (xpos - c.last_mouse_pos.1) * 0.005
  let dy := (c.last_mouse_pos.2 - ypos) * 0.005
  let right := Vec3.cross (Vec3.normalize (c.position - c.target)) c.up
  let pitched := rotate_vec dy right (c.position - c.target) + c.target
  rotate_vec dx c.up (pitched - c.target) + c.target

/-- The initial camera with rotation engaged, as after a primary mouse
button press event. -/
def rot_cam : Camera := { Camera.new with is_rotating := true }

/-- The angle between the initial camera offset (2,2,2) and the up
vector (0,1,0). -/
def alpha : ℝ := Real.arccos (1 / Real.sqrt 3)

/-- The camera after one drag event that pitches the initial offset
exactly onto the up axis. -/
def cex_cam1 : Camera := rot_cam.process_mouse 0 (-200 * alpha)

/-- The camera after a further drag event of a quarter turn of pitch,
taken in the state where the position-minus-target vector is parallel
to the up vector and the pitch axis is therefore the zero vector. -/
def cex_cam2 : Camera :=
  cex_cam1.process_mouse 0 (-200 * alpha - 100 * Real.pi)

/-- Calls made against the OpenGL API, as recorded by the shader-stage
functions. -/
inductive GLCmd where
  | createShader (ty : Nat)
  | shaderSource (shader : Nat) (src : String)
  | compileShader (shader : Nat)
  | getShaderiv (shader : Nat) (pname : Nat)
  | getShaderInfoLog (shader : Nat)
  | createProgram
  | attachShader (program : Nat) (shader : Nat)
  | linkProgram (program : Nat)
  | getProgramiv (program : Nat) (pname : Nat)
  | getProgramInfoLog (program : Nat)
  | deleteShader (shader : Nat)
deriving DecidableEq

/-- GL_COMPILE_STATUS. -/
def COMPILE_STATUS : Nat := 0x8B81

/-- GL_LINK_STATUS. -/
def LINK_STATUS : Nat := 0x8B82

/-- GL_INFO_LOG_LENGTH. -/
def INFO_LOG_LENGTH : Nat := 0x8B84

/-- GL_VERTEX_SHADER. -/
def VERTEX_SHADER : Nat := 0x8B31

/-- GL_FRAGMENT_SHADER. -/
def FRAGMENT_SHADER : Nat := 0x8B30

/-- What the GL driver reports to `compile_shader`: the handle returned
by `glCreateShader`, the compile status written by `glGetShaderiv`
(`GL_TRUE` or `GL_FALSE`, an integer), and the info log returned by
`glGetShaderInfoLog`. -/
structure ShaderEnv where
  shader : Nat
  compile_status : Int
  info_log : String

/-- `compile_shader` (src/main.rs lines 269-291), as the trace of GL
calls it makes together with its outcome.  A `panic!` is modelled as
`Except.error` carrying the panic message. -/
def compile_shader (src : String) (ty : Nat) (env : ShaderEnv) :
    List GLCmd × Except String Nat :=
  let shader := env.shader
  let trace0 := [GLCmd.createShader ty, GLCmd.shaderSource shader src,
    GLCmd.compileShader shader, GLCmd.getShaderiv shader COMPILE_STATUS]
  if env.compile_status = 0 then
    (trace0 ++ [GLCmd.getShaderiv shader INFO_LOG_LENGTH,
        GLCmd.getShaderInfoLog shader],
      Except.error ("Shader compilation failed: " ++ env.info_log))
  else
    (trace0, Except.ok shader)

/-- What the GL driver reports to `link_program`: the handle returned by
`glCreateProgram`, the link status written by `glGetProgramiv`, and the
info log returned by `glGetProgramInfoLog`. -/
structure ProgEnv where
  program : Nat
  link_status : Int
  info_log : String

/-- `link_program` (src/main.rs lines 293-315), as the trace of GL calls
it makes together with its outcome. -/
def link_program (vertex_shader fragment_shader : Nat) (env : ProgEnv) :
    List GLCmd × Except String Nat :=
  let program := env.program
  let trace0 := [GLCmd.createProgram,
    GLCmd.attachShader program vertex_shader,
    GLCmd.attachShader program fragment_shader,
    GLCmd.linkProgram program,
    GLCmd.getProgramiv program LINK_STATUS]
  if env.link_status = 0 then
    (trace0 ++ [GLCmd.getProgramiv program INFO_LOG_LENGTH,
        GLCmd.getProgramInfoLog program],
      Except.error ("Program linking failed: " ++ env.info_log))
  else
    (trace0 ++ [GLCmd.deleteShader vertex_shader,
        GLCmd.deleteShader fragment_shader],
      Except.ok program)

/-- The keys the event loop distinguishes. -/
inductive GKey where
  | escape
  | otherKey
deriving DecidableEq

/-- `glfw::Action`. -/
inductive GAction where
  | press
  | release
  | rep
deriving DecidableEq

/-- The mouse buttons the event loop distinguishes. -/
inductive GMouseButton where
  | button1
  | otherButton
deriving DecidableEq

/-- `glfw::WindowEvent`, restricted to the fields the program reads. -/
inductive WindowEvent where
  | key (k : GKey) (scancode : Int) (action : GAction) (mods : Int)
  | mouseButton (button : GMouseButton) (action : GAction) (mods : Int)
  | cursorPos (xpos ypos : ℝ)
  | scroll (xoffset yoffset : ℝ)
  | otherEvent

/-- The state the render loop mutates: the window close flag, the
rotation angle of the cube model matrix, and the camera. -/
structure LoopState where
  should_close : Bool
  rotation_angle : ℝ
  camera : Camera

/-- The event dispatch of `X3D::run` (src/main.rs lines 185-204), one
event at a time. -/
def handle_event (s : LoopState) (e : WindowEvent) : LoopState :=
  match e with
  | .key .escape _ .press _ => { s with should_close := true }
  | .mouseButton .button1 .press _ =>
      { s with camera := { s.camera with is_rotating := true } }
  | .mouseButton .button1 .release _ =>
      { s with camera := { s.camera with is_rotating := false } }
  | .cursorPos xpos ypos =>
      { s with camera := s.camera.process_mouse xpos ypos }
  | .scroll _ yoffset =>
      { s with camera := s.camera.process_scroll yoffset }
  | _ => s

/-- Whether an event is matched by one of the five explicit arms of the
event dispatch; every other event falls through to the wildcard arm. -/
def handled : WindowEvent → Bool
  | .key .escape _ .press _ => true
  | .mouseButton .button1 .press _ => true
  | .mouseButton .button1 .release _ => true
  | .cursorPos _ _ => true
  | .scroll _ _ => true
  | _ => false

/-- The loop state as `X3D::new` builds it: the rotation angle starts at
0.0 and the camera is `Camera::new`. -/
def init_state : LoopState :=
  { should_close := false, rotation_angle := 0, camera := Camera.new }

/-- One whole iteration of the render loop on the state, given the
events drained in that iteration: each event is dispatched in order.
The remainder of the iteration (clear, `render_cube`, buffer swap) reads
the state but does not write it; in particular the rotation-angle update
`self.rotation_angle += 0.5 * delta_time` at src/main.rs line 207 is
commented out, so no arm of the iteration touches `rotation_angle`. -/
def frame (s : LoopState) (events : List WindowEvent) : LoopState :=
  events.foldl handle_event s

/-- The loop state at the start of iteration `n` of `X3D::run`, given
for each iteration the list of events it drains. -/
def state_at (evs : Nat → List WindowEvent) : Nat → LoopState
  | 0 => init_state
  | n + 1 => frame (state_at evs n) (evs n)

/-- The rotation angle `render_cube` feeds into the model matrix at
iteration `n`. -/
def model_angle_at (evs : Nat → List WindowEvent) (n : Nat) : ℝ :=
  (state_at evs n).rotation_angle

/-- The cube is rotating during a run: at some iteration the model
matrix is built from a rotation angle different from the initial one. -/
def cube_rotates (evs : Nat → List WindowEvent) : Prop :=
  ∃ n, model_angle_at evs n ≠ model_angle_at evs 0

/-- Claim C1: for every camera state and every scroll offset,
`process_scroll` sets `zoom` to the clamp of `zoom - offset * 0.1` into
the interval [0.1, 5.0], so the resulting zoom always lies in
[0.1, 5.0]. -/
theorem process_scroll_clamps (c : Camera) (yoffset : ℝ) :
    (c.process_scroll yoffset).zoom
        = min (max (c.zoom - yoffset * 0.1) 0.1) 5.0
      ∧ 0.1 ≤ (c.process_scroll yoffset).zoom
      ∧ (c.process_scroll yoffset).zoom ≤ 5.0 := by
  refine ⟨rfl, ?_, ?_⟩
  · exact le_min (le_max_right _ _) (by norm_num)
  · exact min_le_right _ _

/-- Claim C10: `process_scroll` modifies only the `zoom` field; the
position, target, up vector, last cursor position and rotating flag are
unchanged. -/
theorem process_scroll_only_zoom (c : Camera) (yoffset : ℝ) :
    (c.process_scroll yoffset).position = c.position
      ∧ (c.process_scroll yoffset).target = c.target
      ∧ (c.process_scroll yoffset).up = c.up
      ∧ (c.process_scroll yoffset).last_mouse_pos = c.last_mouse_pos
      ∧ (c.process_scroll yoffset).is_rotating = c.is_rotating :=
  ⟨rfl, rfl, rfl, rfl, rfl⟩

/-- Claim C6: with `is_rotating` false, `process_mouse` changes only
`last_mouse_pos` and leaves the position unchanged; and in every state,
rotating or not, it sets `last_mouse_pos` to the new cursor position. -/
theorem process_mouse_not_rotating (c : Camera) (x y : ℝ) :
    (c.is_rotating = false →
        c.process_mouse x y = { c with last_mouse_pos := (x, y) })
      ∧ (c.process_mouse x y).last_mouse_pos = (x, y) := by
  constructor
  · intro h
    simp [Camera.process_mouse, h]
  · by_cases h : c.is_rotating <;> simp [Camera.process_mouse, h]

/-- Witness for `process_mouse_not_rotating` at the initial camera,
whose rotating flag is false. -/
theorem process_mouse_not_rotating_witness :
    Camera.new.process_mouse 3 4
        = { Camera.new with last_mouse_pos := (3, 4) }
      ∧ (Camera.new.process_mouse 3 4).last_mouse_pos = (3, 4) :=
  ⟨(process_mouse_not_rotating Camera.new 3 4).1 rfl,
    (process_mouse_not_rotating Camera.new 3 4).2⟩

/-- Claim C4: with `is_rotating` true, `process_mouse` scales the cursor
deltas from `last_mouse_pos` by sensitivity 0.005, pitches the
position-minus-target vector about `cross(normalize(position - target),
up)` by the vertical delta, re-adds the target, yaws about the fixed up
vector by the horizontal delta, re-adds the target, and records the new
cursor position. -/
theorem process_mouse_rotating_spec (c : Camera) (x y : ℝ)
    (h : c.is_rotating = true) :
    c.process_mouse x y
      = { c with position := spec_orbit_position c x y,
                 last_mouse_pos := (x, y) } := by
  simp [Camera.process_mouse, spec_orbit_position, h]

/-- Witness for `process_mouse_rotating_spec` at the initial camera with
rotation engaged. -/
theorem process_mouse_rotating_spec_witness :
    rot_cam.process_mouse 5 6
      = { rot_cam with position := spec_orbit_position rot_cam 5 6,
                       last_mouse_pos := (5, 6) } :=
  process_mouse_rotating_spec rot_cam 5 6 rfl

/-- Claim C5: `get_view_matrix` is the look-at matrix of eye
`position * zoom`, the target and the up vector, and on the unmodified
default camera it equals `look_at((2,2,2), (0,0,0), (0,1,0))` exactly.
It is modelled as a pure function of the camera state, which mutates
nothing. -/
theorem get_view_matrix_look_at :
    (∀ c : Camera,
        c.get_view_matrix = look_at (c.zoom • c.position) c.target c.up)
      ∧ Camera.new.get_view_matrix = look_at ⟨2, 2, 2⟩ ⟨0, 0, 0⟩ ⟨0, 1, 0⟩ := by
  refine ⟨fun c => rfl, ?_⟩
  have h : Camera.new.zoom • Camera.new.position = (⟨2, 2, 2⟩ : Vec3) := by
    ext <;> simp [Camera.new]
  rw [Camera.get_view_matrix, h]
  rfl

theorem Vec3.normSq_nonneg (a : Vec3) : 0 ≤ Vec3.normSq a := by
  have hx := mul_self_nonneg a.x
  have hy := mul_self_nonneg a.y
  have hz := mul_self_nonneg a.z
  unfold Vec3.normSq
  linarith

theorem Vec3.normSq_pos {a : Vec3} (h : a ≠ 0) : 0 < Vec3.normSq a := by
  rcases lt_or_eq_of_le (Vec3.normSq_nonneg a) with hlt | heq
  · exact hlt
  · exfalso
    apply h
    have h0 : a.x * a.x + a.y * a.y + a.z * a.z = 0 := heq.symm
    have hx := mul_self_nonneg a.x
    have hy := mul_self_nonneg a.y
    have hz := mul_self_nonneg a.z
    have hx0 : a.x * a.x = 0 := by linarith
    have hy0 : a.y * a.y = 0 := by linarith
    have hz0 : a.z * a.z = 0 := by linarith
    ext
    · simpa using mul_self_eq_zero.mp hx0
    · simpa using mul_self_eq_zero.mp hy0
    · simpa using mul_self_eq_zero.mp hz0

theorem Vec3.normSq_smul (t : ℝ) (a : Vec3) :
    Vec3.normSq (t • a) = t ^ 2 * Vec3.normSq a := by
  simp only [Vec3.normSq, Vec3.smul_x, Vec3.smul_y, Vec3.smul_z]
  ring

theorem Vec3.normSq_normalize {a : Vec3} (h : a ≠ 0) :
    Vec3.normSq (Vec3.normalize a) = 1 := by
  have hpos := Vec3.normSq_pos h
  have hsq : Real.sqrt (Vec3.normSq a) ^ 2 = Vec3.normSq a :=
    Real.sq_sqrt hpos.le
  rw [Vec3.normalize, Vec3.normSq_smul, Vec3.norm, div_pow, one_pow, hsq]
  field_simp

theorem Vec3.sub_eq_zero_iff {a b : Vec3} : a - b = 0 ↔ a = b := by
  constructor
  · intro h
    have hx := congrArg Vec3.x h
    have hy := congrArg Vec3.y h
    have hz := congrArg Vec3.z h
    simp only [Vec3.sub_x, Vec3.sub_y, Vec3.sub_z, Vec3.zero_x, Vec3.zero_y,
      Vec3.zero_z, sub_eq_zero] at hx hy hz
    exact Vec3.ext hx hy hz
  · intro h
    rw [h]
    ext <;> simp

@[simp] theorem Vec3.add_sub_cancel (a t : Vec3) : a + t - t = a := by
  ext <;> simp

/-- A Rodrigues rotation about a unit axis preserves the squared norm. -/
theorem normSq_rodrigues (θ : ℝ) (k v : Vec3) (hk : Vec3.normSq k = 1) :
    Vec3.normSq (rodrigues θ k v) = Vec3.normSq v := by
  obtain ⟨kx, ky, kz⟩ := k
  obtain ⟨vx, vy, vz⟩ := v
  have hpyth : Real.sin θ ^ 2 + Real.cos θ ^ 2 = 1 := Real.sin_sq_add_cos_sq θ
  simp only [rodrigues, Vec3.cross, Vec3.dot, Vec3.normSq, Vec3.add_x,
    Vec3.add_y, Vec3.add_z, Vec3.smul_x, Vec3.smul_y, Vec3.smul_z] at hk ⊢
  linear_combination
    ((vx ^ 2 + vy ^ 2 + vz ^ 2) - (kx * vx + ky * vy + kz * vz) ^ 2) * hpyth
      + (Real.sin θ ^ 2 * (vx ^ 2 + vy ^ 2 + vz ^ 2)
          + (1 - Real.cos θ) ^ 2 * (kx * vx + ky * vy + kz * vz) ^ 2) * hk

/-- `glm::rotate` applied to a vector preserves the squared norm
whenever the rotation axis is nonzero. -/
theorem normSq_rotate_vec (θ : ℝ) {axis : Vec3} (v : Vec3) (h : axis ≠ 0) :
    Vec3.normSq (rotate_vec θ axis v) = Vec3.normSq v :=
  normSq_rodrigues θ _ v (Vec3.normSq_normalize h)

@[simp] theorem Camera.process_mouse_target (c : Camera) (x y : ℝ) :
    (c.process_mouse x y).target = c.target := by
  by_cases h : c.is_rotating <;> simp [Camera.process_mouse, h]

@[simp] theorem Camera.process_mouse_up (c : Camera) (x y : ℝ) :
    (c.process_mouse x y).up = c.up := by
  by_cases h : c.is_rotating <;> simp [Camera.process_mouse, h]

@[simp] theorem Camera.process_mouse_is_rotating (c : Camera) (x y : ℝ) :
    (c.process_mouse x y).is_rotating = c.is_rotating := by
  by_cases h : c.is_rotating <;> simp [Camera.process_mouse, h]

/-- One nondegenerate `process_mouse` step preserves the squared
distance of the position from the target. -/
theorem process_mouse_normSq (c : Camera) (x y : ℝ) (hnd : nondeg c) :
    Vec3.normSq ((c.process_mouse x y).position - (c.process_mouse x y).target)
      = Vec3.normSq (c.position - c.target) := by
  obtain ⟨hax, hup⟩ := hnd
  have hax' : Vec3.cross (Vec3.normalize (c.position - c.target)) c.up ≠ 0 :=
    hax
  by_cases h : c.is_rotating
  · simp only [Camera.process_mouse, h, if_true]
    simp only [Vec3.add_sub_cancel]
    rw [normSq_rotate_vec _ _ hup, normSq_rotate_vec _ _ hax']
  · simp [Camera.process_mouse, h]

theorem process_mouse_list_normSq (ps : List (ℝ × ℝ)) (c : Camera)
    (hnd : nondeg_along c ps) :
    Vec3.normSq
        ((process_mouse_list c ps).position - (process_mouse_list c ps).target)
      = Vec3.normSq (c.position - c.target) := by
  induction ps generalizing c with
  | nil => rfl
  | cons p rest ih =>
      obtain ⟨h1, h2⟩ := hnd
      have hstep : process_mouse_list c (p :: rest)
          = process_mouse_list (c.process_mouse p.1 p.2) rest := rfl
      rw [hstep, ih _ h2, process_mouse_normSq c p.1 p.2 h1]

/-- Claim C3 (amended): for every finite sequence of `process_mouse`
calls performed while `is_rotating` is true, provided at every step the
pitch axis `cross(normalize(position - target), up)` and the up vector
are nonzero, the camera distance from the target is exactly preserved
over real arithmetic, and a position distinct from the target stays
distinct from it. -/
theorem orbit_preserves_distance (c : Camera) (ps : List (ℝ × ℝ))
    (_hrot : c.is_rotating = true) (hnd : nondeg_along c ps) :
    cam_dist (process_mouse_list c ps) = cam_dist c
      ∧ (c.position ≠ c.target →
          (process_mouse_list c ps).position
            ≠ (process_mouse_list c ps).target) := by
  have hS := process_mouse_list_normSq ps c hnd
  constructor
  · rw [cam_dist, cam_dist, Vec3.norm, Vec3.norm, hS]
  · intro hne hEq
    have h0 : Vec3.normSq
        ((process_mouse_list c ps).position
          - (process_mouse_list c ps).target) = 0 := by
      rw [hEq]
      simp [Vec3.normSq]
    rw [hS] at h0
    have hsub : c.position - c.target ≠ 0 := by
      intro hz
      exact hne (Vec3.sub_eq_zero_iff.mp hz)
    exact absurd h0 (Vec3.normSq_pos hsub).ne'

@[simp] theorem Vec3.add_zero (a : Vec3) : a + 0 = a := by
  ext <;> simp

@[simp] theorem Vec3.sub_zero (a : Vec3) : a - 0 = a := by
  ext <;> simp

theorem process_mouse_last (c : Camera) (x y : ℝ) :
    (c.process_mouse x y).last_mouse_pos = (x, y) := by
  by_cases h : c.is_rotating <;> simp [Camera.process_mouse, h]

/-- The position written by the rotating branch of `process_mouse`, in
terms of the two axis rotations. -/
theorem process_mouse_position_rotating (c : Camera) (x y : ℝ)
    (h : c.is_rotating = true) :
    (c.process_mouse x y).position
      = rotate_vec ((x - c.last_mouse_pos.1) * 0.005) c.up
          (rotate_vec ((c.last_mouse_pos.2 - y) * 0.005) (pitch_axis c)
              (c.position - c.target) + c.target - c.target)
        + c.target := by
  simp [Camera.process_mouse, h, pitch_axis]

/-- A rotation by angle 0 is the identity. -/
theorem rotate_vec_zero (axis v : Vec3) : rotate_vec 0 axis v = v := by
  ext <;>
    simp [rotate_vec, rodrigues, Vec3.cross, Vec3.dot]

/-- A quarter-turn rotation about the zero axis sends every vector to
the zero vector: the axis normalization divides by a zero norm, leaving
the zero axis, and the remaining term of the Rodrigues formula is
scaled by cos(pi/2) = 0. -/
theorem rotate_vec_pi_div_two_zero_axis (w : Vec3) :
    rotate_vec (Real.pi / 2) 0 w = 0 := by
  ext <;>
    simp [rotate_vec, rodrigues, Vec3.normalize, Vec3.norm, Vec3.normSq,
      Vec3.cross, Vec3.dot, Real.cos_pi_div_two]

theorem cos_alpha : Real.cos alpha = 1 / Real.sqrt 3 := by
  rw [alpha]
  apply Real.cos_arccos
  · have h : (0:ℝ) ≤ 1 / Real.sqrt 3 := by positivity
    linarith
  · rw [div_le_one (Real.sqrt_pos.mpr (by norm_num))]
    rw [show (1:ℝ) = Real.sqrt 1 from (Real.sqrt_one).symm]
    exact Real.sqrt_le_sqrt (by norm_num)

theorem sin_alpha : Real.sin alpha = Real.sqrt 2 / Real.sqrt 3 := by
  rw [alpha, Real.sin_arccos]
  have h3 : Real.sqrt 3 ^ 2 = 3 := Real.sq_sqrt (by norm_num)
  have harg : (1:ℝ) - (1 / Real.sqrt 3) ^ 2 = 2 / 3 := by
    rw [div_pow, one_pow, h3]
    norm_num
  rw [harg, Real.sqrt_div (by norm_num : (0:ℝ) ≤ 2) 3]

theorem pitch_axis_rot_cam :
    pitch_axis rot_cam = ⟨-(2 / Real.sqrt 12), 0, 2 / Real.sqrt 12⟩ := by
  ext <;>
    simp [pitch_axis, rot_cam, Camera.new, Vec3.cross, Vec3.normalize,
      Vec3.norm, Vec3.normSq] <;>
    norm_num <;> ring

theorem rot_cam_nondeg : nondeg rot_cam := by
  constructor
  · intro h
    rw [pitch_axis_rot_cam] at h
    have hz := congrArg Vec3.z h
    simp only [Vec3.zero_z] at hz
    have hs : Real.sqrt 12 ≠ 0 := Real.sqrt_ne_zero'.mpr (by norm_num)
    rw [div_eq_zero_iff] at hz
    rcases hz with h2 | h2
    · norm_num at h2
    · exact hs h2
  · intro h
    have hy := congrArg Vec3.y h
    simp [rot_cam, Camera.new] at hy

/-- Witness for `orbit_preserves_distance`: one nondegenerate drag step
from the initial camera with rotation engaged. -/
theorem orbit_preserves_distance_witness :
    cam_dist (process_mouse_list rot_cam [(0, 100)]) = cam_dist rot_cam
      ∧ (rot_cam.position ≠ rot_cam.target →
          (process_mouse_list rot_cam [(0, 100)]).position
            ≠ (process_mouse_list rot_cam [(0, 100)]).target) :=
  orbit_preserves_distance rot_cam [(0, 100)] rfl ⟨rot_cam_nondeg, trivial⟩

/-- The first drag event of the degenerate sequence: the camera position
after it is the Rodrigues rotation of (2,2,2) by `alpha` about the
initial pitch axis. -/
theorem cex_cam1_position :
    cex_cam1.position
      = rotate_vec alpha ⟨-(2 / Real.sqrt 12), 0, 2 / Real.sqrt 12⟩
          ⟨2, 2, 2⟩ := by
  have hl1 : rot_cam.last_mouse_pos.1 = 0 := rfl
  have hl2 : rot_cam.last_mouse_pos.2 = 0 := rfl
  show (rot_cam.process_mouse 0 (-200 * alpha)).position = _
  rw [process_mouse_position_rotating rot_cam 0 (-200 * alpha) rfl, hl1, hl2]
  have hang1 : ((0:ℝ) - 0) * 0.005 = 0 := by ring
  have hang2 : ((0:ℝ) - (-200 * alpha)) * 0.005 = alpha := by ring
  rw [hang1, hang2, rotate_vec_zero, Vec3.add_sub_cancel, pitch_axis_rot_cam]
  have hpt : rot_cam.position - rot_cam.target = (⟨2, 2, 2⟩ : Vec3) := by
    ext <;> simp [rot_cam, Camera.new]
  have htg : rot_cam.target = (0 : Vec3) := rfl
  rw [hpt, htg, Vec3.add_zero]

/-- After the first degenerate drag event the camera position lies
exactly on the up axis: its x and z components vanish. -/
theorem cex_cam1_vertical :
    cex_cam1.position.x = 0 ∧ cex_cam1.position.z = 0 := by
  have h12 : (0:ℝ) < Real.sqrt 12 := Real.sqrt_pos.mpr (by norm_num)
  have h2 : (0:ℝ) < Real.sqrt 2 := Real.sqrt_pos.mpr (by norm_num)
  have h3 : (0:ℝ) < Real.sqrt 3 := Real.sqrt_pos.mpr (by norm_num)
  have hb : (0:ℝ) < 2 / Real.sqrt 12 := by positivity
  have hnormax :
      Vec3.norm ⟨-(2 / Real.sqrt 12), 0, 2 / Real.sqrt 12⟩
        = 2 / Real.sqrt 12 * Real.sqrt 2 := by
    rw [Vec3.norm]
    have harg : Vec3.normSq ⟨-(2 / Real.sqrt 12), 0, 2 / Real.sqrt 12⟩
        = (2 / Real.sqrt 12) ^ 2 * 2 := by
      simp only [Vec3.normSq]
      ring
    rw [harg, Real.sqrt_mul (by positivity) 2, Real.sqrt_sq hb.le]
  constructor
  · rw [cex_cam1_position]
    simp only [rotate_vec, rodrigues, Vec3.normalize, hnormax, Vec3.cross,
      Vec3.dot, Vec3.add_x, Vec3.add_y, Vec3.add_z, Vec3.smul_x, Vec3.smul_y,
      Vec3.smul_z]
    rw [cos_alpha, sin_alpha]
    field_simp
    ring
  · rw [cex_cam1_position]
    simp only [rotate_vec, rodrigues, Vec3.normalize, hnormax, Vec3.cross,
      Vec3.dot, Vec3.add_x, Vec3.add_y, Vec3.add_z, Vec3.smul_x, Vec3.smul_y,
      Vec3.smul_z]
    rw [cos_alpha, sin_alpha]
    field_simp
    ring

/-- In a state whose position sits exactly on the up axis, the pitch
axis is the zero vector, and a further drag event of a quarter turn of
pitch collapses the position onto the origin. -/
theorem vertical_pitch_collapse (c : Camera)
    (hx : c.position.x = 0) (hz : c.position.z = 0)
    (ht : c.target = 0) (hu : c.up = (⟨0, 1, 0⟩ : Vec3))
    (hr : c.is_rotating = true) (hl : c.last_mouse_pos.1 = 0) :
    (c.process_mouse 0 (c.last_mouse_pos.2 - 100 * Real.pi)).position
      = 0 := by
  have hax : pitch_axis c = 0 := by
    ext <;>
      simp [pitch_axis, Vec3.cross, Vec3.normalize, ht, hu, hx, hz]
  rw [process_mouse_position_rotating c 0
    (c.last_mouse_pos.2 - 100 * Real.pi) hr, hl]
  have hang1 : ((0:ℝ) - 0) * 0.005 = 0 := by ring
  have hang2 :
      (c.last_mouse_pos.2 - (c.last_mouse_pos.2 - 100 * Real.pi)) * 0.005
        = Real.pi / 2 := by ring
  rw [hang1, hang2, hax, rotate_vec_pi_div_two_zero_axis,
    Vec3.add_sub_cancel, rotate_vec_zero, ht, Vec3.add_zero]

/-- Counterexample to claim C3 as stated: over exact real arithmetic
there is a two-event drag sequence, performed from the initial camera
with `is_rotating` true, after which the camera position coincides with
the target, so the distance from the target is not preserved (it was
positive and becomes zero) and the position does become coincident with
the target. -/
theorem orbit_degenerate_collapse :
    cex_cam2.position = cex_cam2.target
      ∧ rot_cam.position ≠ rot_cam.target
      ∧ rot_cam.is_rotating = true := by
  refine ⟨?_, ?_, rfl⟩
  · have hvert := cex_cam1_vertical
    have ht1 : cex_cam1.target = 0 := by
      show (rot_cam.process_mouse 0 (-200 * alpha)).target = 0
      rw [Camera.process_mouse_target]
      rfl
    have hu1 : cex_cam1.up = (⟨0, 1, 0⟩ : Vec3) := by
      show (rot_cam.process_mouse 0 (-200 * alpha)).up = _
      rw [Camera.process_mouse_up]
      rfl
    have hr1 : cex_cam1.is_rotating = true := by
      show (rot_cam.process_mouse 0 (-200 * alpha)).is_rotating = true
      rw [Camera.process_mouse_is_rotating]
      rfl
    have hlast : cex_cam1.last_mouse_pos = (0, -200 * alpha) :=
      process_mouse_last rot_cam 0 (-200 * alpha)
    have hl1 : cex_cam1.last_mouse_pos.1 = 0 := by rw [hlast]
    have hl2 : cex_cam1.last_mouse_pos.2 = -200 * alpha := by rw [hlast]
    have harg : -200 * alpha - 100 * Real.pi
        = cex_cam1.last_mouse_pos.2 - 100 * Real.pi := by rw [hl2]
    have htgt2 : cex_cam2.target = 0 := by
      show (cex_cam1.process_mouse 0
        (-200 * alpha - 100 * Real.pi)).target = 0
      rw [Camera.process_mouse_target, ht1]
    rw [htgt2]
    show (cex_cam1.process_mouse 0
      (-200 * alpha - 100 * Real.pi)).position = 0
    rw [harg]
    exact vertical_pitch_collapse cex_cam1 hvert.1 hvert.2 ht1 hu1 hr1 hl1
  · intro h
    have hx := congrArg Vec3.x h
    simp [rot_cam, Camera.new] at hx

theorem handle_event_rotation_angle (s : LoopState) (e : WindowEvent) :
    (handle_event s e).rotation_angle = s.rotation_angle := by
  cases e with
  | key k sc a m => cases k <;> cases a <;> rfl
  | mouseButton b a m => cases b <;> cases a <;> rfl
  | cursorPos x y => rfl
  | scroll sx sy => rfl
  | otherEvent => rfl

theorem frame_rotation_angle (s : LoopState) (evs : List WindowEvent) :
    (frame s evs).rotation_angle = s.rotation_angle := by
  induction evs generalizing s with
  | nil => rfl
  | cons e rest ih =>
      have hstep : frame s (e :: rest) = frame (handle_event s e) rest := rfl
      rw [hstep, ih, handle_event_rotation_angle]

theorem state_at_rotation_angle (evs : Nat → List WindowEvent) (n : Nat) :
    (state_at evs n).rotation_angle = 0 := by
  induction n with
  | zero => rfl
  | succ n ih => rw [state_at, frame_rotation_angle, ih]

/-- Claim C2 (amended): across the iterations of the render loop the
rotation angle fed into the per-frame model matrix never changes: it
stays at its initial value 0.0 for every frame and every event stream,
because the per-frame update of `rotation_angle` is commented out in
`X3D::run`. -/
theorem rotation_angle_frozen (evs : Nat → List WindowEvent) (n : Nat) :
    model_angle_at evs n = model_angle_at evs 0
      ∧ model_angle_at evs n = 0 := by
  constructor <;>
    simp [model_angle_at, state_at_rotation_angle]

/-- Counterexample to claim C2 as stated: in a concrete run (here the
run that drains no events, though `state_at_rotation_angle` shows the
same for every run) the rotation angle does not change at any
iteration, so the cube is not rotating. -/
theorem rotation_angle_static_run : ¬ cube_rotates (fun _ => []) := by
  rintro ⟨n, hn⟩
  exact hn (by
    rw [model_angle_at, model_angle_at, state_at_rotation_angle,
      state_at_rotation_angle])

/-- Claim C9: the event dispatch of the render loop sends an Escape key
press to the close flag, primary-button press and release to the
rotating flag, cursor positions to `process_mouse`, the vertical scroll
offset to `process_scroll`, and leaves the state unchanged on every
other event. -/
theorem event_dispatch (s : LoopState) (sc mods : Int) (x y sx sy : ℝ) :
    handle_event s (.key .escape sc .press mods)
        = { s with should_close := true }
      ∧ handle_event s (.mouseButton .button1 .press mods)
          = { s with camera := { s.camera with is_rotating := true } }
      ∧ handle_event s (.mouseButton .button1 .release mods)
          = { s with camera := { s.camera with is_rotating := false } }
      ∧ handle_event s (.cursorPos x y)
          = { s with camera := s.camera.process_mouse x y }
      ∧ handle_event s (.scroll sx sy)
          = { s with camera := s.camera.process_scroll sy }
      ∧ ∀ e, handled e = false → handle_event s e = s := by
  refine ⟨rfl, rfl, rfl, rfl, rfl, ?_⟩
  intro e he
  cases e with
  | key k sc2 a m =>
      cases k with
      | escape =>
          cases a with
          | press => simp [handled] at he
          | release => rfl
          | rep => rfl
      | otherKey => cases a <;> rfl
  | mouseButton b a m =>
      cases b with
      | button1 =>
          cases a with
          | press => simp [handled] at he
          | release => simp [handled] at he
          | rep => rfl
      | otherButton => cases a <;> rfl
  | cursorPos u v => simp [handled] at he
  | scroll u v => simp [handled] at he
  | otherEvent => rfl

/-- Witness for `event_dispatch` at the initial loop state: an Escape
press sets the close flag, and an unhandled event leaves the state
unchanged. -/
theorem event_dispatch_witness :
    handle_event init_state (.key .escape 0 .press 0)
        = { init_state with should_close := true }
      ∧ handle_event init_state .otherEvent = init_state :=
  ⟨(event_dispatch init_state 0 0 0 0 0 0).1,
    (event_dispatch init_state 0 0 0 0 0 0).2.2.2.2.2 .otherEvent rfl⟩

/-- Claim C7: `compile_shader` aborts exactly when the queried compile
status is 0, its abort message contains the retrieved info log, and on a
nonzero status it returns the new shader handle without aborting. -/
theorem compile_shader_abort_iff (src : String) (ty : Nat) (env : ShaderEnv) :
    ((compile_shader src ty env).2
        = Except.error ("Shader compilation failed: " ++ env.info_log)
      ↔ env.compile_status = 0)
      ∧ (env.compile_status = 0 →
          env.info_log.data
            <:+: ("Shader compilation failed: " ++ env.info_log).data)
      ∧ (env.compile_status ≠ 0 →
          (compile_shader src ty env).2 = Except.ok env.shader) := by
  refine ⟨?_, ?_, ?_⟩
  · by_cases h : env.compile_status = 0 <;> simp [compile_shader, h]
  · intro h
    exact ⟨("Shader compilation failed: ").data, [],
      by simp [String.data_append]⟩
  · intro h
    simp [compile_shader, h]

/-- Witness for `compile_shader_abort_iff`: a failing environment yields
the abort message containing the log, a succeeding one returns the
handle. -/
theorem compile_shader_abort_iff_witness :
    (compile_shader ("broken source") VERTEX_SHADER
          ⟨7, 0, "0:1: unexpected token"⟩).2
        = Except.error ("Shader compilation failed: "
            ++ "0:1: unexpected token")
      ∧ (("0:1: unexpected token").data
          <:+: ("Shader compilation failed: "
              ++ "0:1: unexpected token").data)
      ∧ (compile_shader ("void main source") FRAGMENT_SHADER ⟨9, 1, ""⟩).2
          = Except.ok 9 := by
  refine ⟨?_, ?_, ?_⟩
  · exact (compile_shader_abort_iff ("broken source") VERTEX_SHADER
      ⟨7, 0, "0:1: unexpected token"⟩).1.mpr rfl
  · exact (compile_shader_abort_iff ("broken source") VERTEX_SHADER
      ⟨7, 0, "0:1: unexpected token"⟩).2.1 rfl
  · exact (compile_shader_abort_iff ("void main source") FRAGMENT_SHADER
      ⟨9, 1, ""⟩).2.2 (by decide)

/-- Claim C8: `link_program` creates a program, attaches both shaders
and links; a zero link status aborts with the linker log in the
message, and a nonzero one deletes both shader objects and returns the
program handle. -/
theorem link_program_behavior (v f : Nat) (env : ProgEnv) :
    GLCmd.createProgram ∈ (link_program v f env).1
      ∧ GLCmd.attachShader env.program v ∈ (link_program v f env).1
      ∧ GLCmd.attachShader env.program f ∈ (link_program v f env).1
      ∧ GLCmd.linkProgram env.program ∈ (link_program v f env).1
      ∧ (env.link_status = 0 →
          (link_program v f env).2
              = Except.error ("Program linking failed: " ++ env.info_log)
            ∧ env.info_log.data
                <:+: ("Program linking failed: " ++ env.info_log).data)
      ∧ (env.link_status ≠ 0 →
          GLCmd.deleteShader v ∈ (link_program v f env).1
            ∧ GLCmd.deleteShader f ∈ (link_program v f env).1
            ∧ (link_program v f env).2 = Except.ok env.program) := by
  refine ⟨?_, ?_, ?_, ?_, ?_, ?_⟩
  · by_cases h : env.link_status = 0 <;> simp [link_program, h]
  · by_cases h : env.link_status = 0 <;> simp [link_program, h]
  · by_cases h : env.link_status = 0 <;> simp [link_program, h]
  · by_cases h : env.link_status = 0 <;> simp [link_program, h]
  · intro h
    refine ⟨by simp [link_program, h], ?_⟩
    exact ⟨("Program linking failed: ").data, [],
      by simp [String.data_append]⟩
  · intro h
    exact ⟨by simp [link_program, h], by simp [link_program, h],
      by simp [link_program, h]⟩

/-- Witness for `link_program_behavior`: a failing link aborts with the
log in the message, a succeeding one deletes both shaders and returns
the program. -/
theorem link_program_behavior_witness :
    GLCmd.attachShader 5 3 ∈ (link_program 3 4 ⟨5, 1, ""⟩).1
      ∧ GLCmd.deleteShader 3 ∈ (link_program 3 4 ⟨5, 1, ""⟩).1
      ∧ GLCmd.deleteShader 4 ∈ (link_program 3 4 ⟨5, 1, ""⟩).1
      ∧ (link_program 3 4 ⟨5, 1, ""⟩).2 = Except.ok 5
      ∧ (link_program 3 4 ⟨5, 0, "no main"⟩).2
          = Except.error ("Program linking failed: " ++ "no main") := by
  refine ⟨?_, ?_, ?_, ?_, ?_⟩
  · exact (link_program_behavior 3 4 ⟨5, 1, ""⟩).2.1
  · exact ((link_program_behavior 3 4 ⟨5, 1, ""⟩).2.2.2.2.2 (by decide)).1
  · exact ((link_program_behavior 3 4 ⟨5, 1, ""⟩).2.2.2.2.2 (by decide)).2.1
  · exact ((link_program_behavior 3 4 ⟨5, 1, ""⟩).2.2.2.2.2 (by decide)).2.2
  · exact ((link_program_behavior 3 4 ⟨5, 0, "no main"⟩).2.2.2.2.1 rfl).1

end
